import Mathlib

/-!
Verification development for `Thunder/bot/plugins/stream.py`.

The Python plugin is shallowly embedded: pure helpers (`_sanitize_url`,
`get_link_buttons`) become pure Lean functions; functions whose behaviour
depends on remote calls (`fwd_media`, `_safe_send_with_buttons`,
`process_batch`) become functions of an explicit environment recording the
outcome of each remote call (flood-wait retries by `handle_flood_wait` are
already absorbed into those outcomes: a flood-wait is retried unboundedly,
so an observable outcome is either a final success or a non-flood error).
A Python function that may raise is embedded with an `Except` result.
-/

/-! ### Python string helpers -/

/-- Whitespace predicate used by Python `str.strip()` / `str.isspace()`
(the ASCII and Latin-1 whitespace characters; wider astral whitespace is
not relevant to the URLs handled here). -/
def isPySpace (c : Char) : Bool :=
  c == ' ' || c == '\t' || c == '\n' || c == '\x0b' || c == '\x0c' || c == '\r' ||
  c == '\x1c' || c == '\x1d' || c == '\x1e' || c == '\x1f' || c == '\x85' || c == '\xa0'

/-- Python `s.strip()`. -/
def pyStrip (s : String) : String :=
  String.mk (((s.data.dropWhile isPySpace).reverse.dropWhile isPySpace).reverse)

/-- Naive substring search on char lists (helper for `containsSubstr`). -/
def listContainsSub (pat : List Char) : List Char → Bool
  | [] => pat.isEmpty
  | c :: t => pat.isPrefixOf (c :: t) || listContainsSub pat t

/-- Python `pat in s` for a non-empty literal pattern `pat`. -/
def containsSubstr (s pat : String) : Bool :=
  listContainsSub pat.data s.data

/-- Python `sep.join(list)`. -/
def pyJoin (sep : String) : List String → String
  | [] => ""
  | [x] => x
  | x :: y :: t => x ++ sep ++ pyJoin sep (y :: t)

/-! ### `urllib.parse.urlsplit` -/

/-- The result quintuple of `urllib.parse.urlsplit`. -/
structure SplitResult where
  scheme : String
  netloc : String
  path : String
  query : String
  fragment : String
deriving DecidableEq

/-- Characters allowed in a URL scheme (`urllib.parse.scheme_chars`). -/
def schemeChars (c : Char) : Bool :=
  c.isAlpha || c.isDigit || c == '+' || c == '-' || c == '.'

/-- ASCII lowercasing, as applied by `.lower()` to the (all-ASCII) scheme. -/
def lowerChar (c : Char) : Char :=
  if 'A' ≤ c ∧ c ≤ 'Z' then Char.ofNat (c.toNat + 32) else c

/-- Scheme extraction step of `urlsplit`: the text before the first `:` is
taken as the scheme when it is non-empty, starts with an ASCII letter and
consists of scheme characters only; it is lowercased and removed. -/
def splitScheme (l : List Char) : List Char × List Char :=
  match List.findIdx? (fun c => c == ':') l with
  | some i =>
    if 0 < i ∧ (l.headD ' ').isAlpha ∧ (l.take i).all schemeChars then
      ((l.take i).map lowerChar, l.drop (i + 1))
    else ([], l)
  | none => ([], l)

/-- `urllib.parse._splitnetloc` applied after the leading `//` was dropped:
the netloc runs until the first `/`, `?` or `#`. -/
def splitNetloc (l : List Char) : List Char × List Char :=
  let n := l.takeWhile (fun c => !(c == '/' || c == '?' || c == '#'))
  (n, l.drop n.length)

/-- Split at the first occurrence of `sep` (Python `url.split(sep, 1)`),
returning the input unchanged with an empty second part when absent. -/
def splitOnceChar (l : List Char) (sep : Char) : List Char × List Char :=
  let pre := l.takeWhile (fun c => c != sep)
  if pre.length = l.length then (l, []) else (pre, l.drop (pre.length + 1))

/-- `urllib.parse.urlsplit(s)` (default arguments).  Tab, CR and LF are
removed, the scheme is split off, a `//`-led authority is split off, and an
authority with unbalanced square brackets raises `ValueError("Invalid IPv6
URL")` — embedded as `Except.error`.  The fragment is split at the first
`#` of the remainder, then the query at the first `?`.  (The NFKC netloc
check and the bracketed-host validation of the newest CPython, which only
concern exotic unicode authorities, are not modelled.) -/
def urlsplit (s : String) : Except String SplitResult :=
  let l := s.data.filter (fun c => !(c == '\t' || c == '\r' || c == '\n'))
  let sl := splitScheme l
  let nl := if sl.2.take 2 = ['/', '/'] then splitNetloc (sl.2.drop 2) else ([], sl.2)
  if (nl.1.contains '[' && !nl.1.contains ']') ||
     (nl.1.contains ']' && !nl.1.contains '[') then
    .error "Invalid IPv6 URL"
  else
    let f := splitOnceChar nl.2 '#'
    let q := splitOnceChar f.1 '?'
    .ok ⟨String.mk sl.1, String.mk nl.1, String.mk q.1, String.mk q.2, String.mk f.2⟩

/-! ### `urllib.parse.quote` / `quote_plus` -/

/-- The characters `quote` never encodes (`_ALWAYS_SAFE`). -/
def alwaysSafe (c : Char) : Bool :=
  c.isAlphanum || c == '_' || c == '.' || c == '-' || c == '~'

/-- UTF-8 encoding of one character, as a list of byte values. -/
def utf8Bytes (c : Char) : List Nat :=
  let n := c.toNat
  if n < 0x80 then [n]
  else if n < 0x800 then [0xC0 + n / 64, 0x80 + n % 64]
  else if n < 0x10000 then [0xE0 + n / 4096, 0x80 + (n / 64) % 64, 0x80 + n % 64]
  else [0xF0 + n / 262144, 0x80 + (n / 4096) % 64, 0x80 + (n / 64) % 64, 0x80 + n % 64]

/-- Uppercase hex digit. -/
def hexDigitU (n : Nat) : Char :=
  if n < 10 then Char.ofNat (48 + n) else Char.ofNat (65 + n - 10)

/-- Percent-encoding of one byte, uppercase hex as CPython produces. -/
def pctByte (b : Nat) : List Char :=
  ['%', hexDigitU (b / 16), hexDigitU (b % 16)]

/-- One character of `urllib.parse.quote`: kept when always-safe or in the
`safe` set, otherwise percent-encoded bytewise. -/
def quoteChar (safe : List Char) (c : Char) : List Char :=
  if alwaysSafe c || safe.contains c then [c]
  else (utf8Bytes c).flatMap pctByte

/-- `urllib.parse.quote(s, safe)` (UTF-8 encoding, strict errors). -/
def quote (s : String) (safe : String) : String :=
  String.mk (s.data.flatMap (quoteChar safe.data))

/-- `urllib.parse.quote_plus(s, safe)`: when a space occurs, quote with
space appended to `safe` and then replace spaces by `+`. -/
def quote_plus (s : String) (safe : String) : String :=
  if s.data.contains ' ' then
    String.mk ((quote s (safe ++ " ")).data.map (fun c => if c == ' ' then '+' else c))
  else quote s safe

/-! ### `urllib.parse.unquote` -/

/-- Value of a hex digit character, both cases (CPython `_hextobyte`). -/
def hexVal (c : Char) : Option Nat :=
  if '0' ≤ c ∧ c ≤ '9' then some (c.toNat - 48)
  else if 'a' ≤ c ∧ c ≤ 'f' then some (c.toNat - 97 + 10)
  else if 'A' ≤ c ∧ c ≤ 'F' then some (c.toNat - 65 + 10)
  else none

/-- The Unicode replacement character U+FFFD. -/
def replChar : Char := Char.ofNat 0xFFFD

/-- UTF-8 continuation byte. -/
def isCont (b : Nat) : Bool := 0x80 ≤ b && b < 0xC0

/-- First continuation-byte range for a 3-byte leader (CPython decoder). -/
def cont3Fst (b b1 : Nat) : Bool :=
  if b = 0xE0 then 0xA0 ≤ b1 && b1 < 0xC0
  else if b = 0xED then 0x80 ≤ b1 && b1 < 0xA0
  else isCont b1

/-- First continuation-byte range for a 4-byte leader (CPython decoder). -/
def cont4Fst (b b1 : Nat) : Bool :=
  if b = 0xF0 then 0x90 ≤ b1 && b1 < 0xC0
  else if b = 0xF4 then 0x80 ≤ b1 && b1 < 0x90
  else isCont b1

/-- `bytes.decode("utf-8", errors="replace")` as CPython performs it: a
malformed sequence contributes one U+FFFD and decoding resumes after its
longest valid prefix. -/
def utf8DecodeReplace : List Nat → List Char
  | [] => []
  | b :: rest =>
    if b < 0x80 then Char.ofNat b :: utf8DecodeReplace rest
    else if 0xC2 ≤ b && b ≤ 0xDF then
      match rest with
      | [] => [replChar]
      | b1 :: rest1 =>
        if isCont b1 then
          Char.ofNat ((b - 0xC0) * 64 + (b1 - 0x80)) :: utf8DecodeReplace rest1
        else replChar :: utf8DecodeReplace (b1 :: rest1)
    else if 0xE0 ≤ b && b ≤ 0xEF then
      match rest with
      | [] => [replChar]
      | b1 :: rest1 =>
        if cont3Fst b b1 then
          match rest1 with
          | [] => [replChar]
          | b2 :: rest2 =>
            if isCont b2 then
              Char.ofNat ((b - 0xE0) * 4096 + (b1 - 0x80) * 64 + (b2 - 0x80)) ::
                utf8DecodeReplace rest2
            else replChar :: utf8DecodeReplace (b2 :: rest2)
        else replChar :: utf8DecodeReplace (b1 :: rest1)
    else if 0xF0 ≤ b && b ≤ 0xF4 then
      match rest with
      | [] => [replChar]
      | b1 :: rest1 =>
        if cont4Fst b b1 then
          match rest1 with
          | [] => [replChar]
          | b2 :: rest2 =>
            if isCont b2 then
              match rest2 with
              | [] => [replChar]
              | b3 :: rest3 =>
                if isCont b3 then
                  Char.ofNat ((b - 0xF0) * 262144 + (b1 - 0x80) * 4096 +
                      (b2 - 0x80) * 64 + (b3 - 0x80)) :: utf8DecodeReplace rest3
                else replChar :: utf8DecodeReplace (b3 :: rest3)
            else replChar :: utf8DecodeReplace (b2 :: rest2)
        else replChar :: utf8DecodeReplace (b1 :: rest1)
    else replChar :: utf8DecodeReplace rest

/-- A token of `unquote`: either a literal character or a percent-decoded
byte. -/
inductive UnqTok where
  | raw (c : Char)
  | byte (b : Nat)
deriving DecidableEq

/-- Tokenize for `unquote`: `%` followed by two hex digits yields a byte,
anything else passes through literally (CPython `unquote_to_bytes`). -/
def unquoteToks : List Char → List UnqTok
  | [] => []
  | '%' :: c1 :: c2 :: rest =>
    match hexVal c1, hexVal c2 with
    | some h, some lo => .byte (16 * h + lo) :: unquoteToks rest
    | _, _ => .raw '%' :: unquoteToks (c1 :: c2 :: rest)
  | c :: rest => .raw c :: unquoteToks rest

/-- Byte payload of a token, if any. -/
def tokByte : UnqTok → Option Nat
  | .byte b => some b
  | .raw _ => none

/-- Emit characters from `unquote` tokens: maximal byte runs are decoded
as UTF-8 with replacement, literal characters pass through.  The fuel is
an upper bound on the token count (each step consumes at least one
token), making the recursion structural. -/
def unqEmitAux : Nat → List UnqTok → List Char
  | _, [] => []
  | 0, _ :: _ => []
  | fuel + 1, .raw c :: rest => c :: unqEmitAux fuel rest
  | fuel + 1, .byte b :: rest =>
    utf8DecodeReplace
        (b :: (rest.takeWhile (fun t => (tokByte t).isSome)).filterMap tokByte) ++
      unqEmitAux fuel (rest.dropWhile (fun t => (tokByte t).isSome))

/-- Emit characters from `unquote` tokens (fuelled by the token count). -/
def unqEmit (ts : List UnqTok) : List Char := unqEmitAux ts.length ts

/-- `urllib.parse.unquote(s, encoding="utf-8", errors="replace")`. -/
def unquote (s : String) : String :=
  String.mk (unqEmit (unquoteToks s.data))

/-! ### `urllib.parse.parse_qsl` / `urlencode` / `urlunsplit` -/

/-- Python `str.split(sep)` on a single-character separator, keeping empty
segments. -/
def splitAll (sep : Char) : List Char → List (List Char)
  | [] => [[]]
  | c :: rest =>
    if c == sep then [] :: splitAll sep rest
    else
      match splitAll sep rest with
      | [] => [[c]]
      | s :: ss => (c :: s) :: ss

/-- `+` to space, applied before `unquote` inside `parse_qsl`. -/
def plusSp (c : Char) : Char := if c == '+' then ' ' else c

/-- One `name=value` segment of `parse_qsl` (maxsplit 1; a segment without
`=` keeps a blank value since `keep_blank_values=True`). -/
def qslPair (seg : List Char) : String × String :=
  let name := seg.takeWhile (fun c => c != '=')
  let value := if name.length = seg.length then [] else seg.drop (name.length + 1)
  (unquote (String.mk (name.map plusSp)), unquote (String.mk (value.map plusSp)))

/-- `urllib.parse.parse_qsl(qs, keep_blank_values=True)`: split on `&`,
skip empty segments, decode each pair. -/
def parse_qsl (qs : String) : List (String × String) :=
  ((splitAll '&' qs.data).filter (fun seg => ¬ seg = [])).map qslPair

/-- `urllib.parse.urlencode(pairs, doseq=True)` over string pairs: each
side percent-encoded by `quote_plus` with empty `safe`, joined by `&`. -/
def urlencode (pairs : List (String × String)) : String :=
  pyJoin "&" (pairs.map (fun p => quote_plus p.1 "" ++ "=" ++ quote_plus p.2 ""))

/-- `urllib.parse.urlunsplit((scheme, netloc, path, query, fragment))`. -/
def urlunsplit (r : SplitResult) : String :=
  let url0 := r.path
  let url1 :=
    if r.netloc ≠ "" ∨ url0.data.take 2 = ['/', '/'] then
      "//" ++ r.netloc ++
        (if url0 ≠ "" ∧ url0.data.take 1 ≠ ['/'] then "/" ++ url0 else url0)
    else url0
  let url2 := if r.scheme ≠ "" then r.scheme ++ ":" ++ url1 else url1
  let url3 := if r.query ≠ "" then url2 ++ "?" ++ r.query else url2
  if r.fragment ≠ "" then url3 ++ "#" ++ r.fragment else url3

/-! ### `_sanitize_url` -/

/-- The bare-prefix promotion of `_sanitize_url`: shortener results such as
`t.me/...` are promoted to `https://`. -/
def promote (s : String) : String :=
  if "t.me/".data.isPrefixOf s.data || "telegram.me/".data.isPrefixOf s.data ||
     "telegram.dog/".data.isPrefixOf s.data
  then "https://" ++ s else s

/-- The re-encoding `_sanitize_url` applies to a split URL: path quoted
with `safe="/%._-~"`, query run through `parse_qsl` then `urlencode`. -/
def reencode (parts : SplitResult) : SplitResult :=
  { parts with path := quote parts.path "/%._-~",
               query := urlencode (parse_qsl parts.query) }

/-- `_sanitize_url(raw)`.  `Except.error` embeds a raised `ValueError`
(reachable through `urlsplit` on an authority with unbalanced brackets);
`.ok none` is Python `None`. -/
def _sanitize_url (raw : Option String) : Except String (Option String) :=
  match raw with
  | none => .ok none
  | some raw0 =>
    if raw0 = "" then .ok none
    else
      let s0 := pyStrip raw0
      if s0 = "" then .ok none
      else
        let s1 := promote s0
        match urlsplit s1 with
        | .error e => .error e
        | .ok parts0 =>
          if ¬ (parts0.scheme = "http" ∨ parts0.scheme = "https") then .ok none
          else if parts0.netloc = "" then .ok none
          else
            let step : Except String SplitResult :=
              if s1.data.any isPySpace then urlsplit (urlunsplit (reencode parts0))
              else .ok parts0
            match step with
            | .error e => .error e
            | .ok parts1 =>
              let safe := urlunsplit (reencode parts1)
              if safe.length > 1024 then .ok none else .ok (some safe)

/-! ### `get_link_buttons` -/

/-- Modelled from the spec: label of the stream button, from the external
messages module (`MSG_BUTTON_STREAM_NOW`); its exact text is irrelevant to
the claims. -/
def MSG_BUTTON_STREAM_NOW : String := "Stream Now"

/-- Modelled from the spec: label of the download button, from the
external messages module (`MSG_BUTTON_DOWNLOAD`). -/
def MSG_BUTTON_DOWNLOAD : String := "Download"

/-- An inline keyboard button (text and url). -/
structure Button where
  text : String
  url : String
deriving DecidableEq

/-- The `links` dict fields read by `get_link_buttons`; a missing key
yields `none` (Python `links.get(...)` returning `None`). -/
structure LinksDict where
  stream_link : Option String
  online_link : Option String
deriving DecidableEq

/-- `get_link_buttons(links)`: sanitize both links, build one row with the
stream button first and the download button second, omitting a button
whose link sanitizes to `None`; an empty row yields `None` instead of a
markup.  A `ValueError` escaping `_sanitize_url` propagates. -/
def get_link_buttons (links : LinksDict) :
    Except String (Option (List (List Button))) :=
  match _sanitize_url links.stream_link with
  | .error e => .error e
  | .ok stream =>
    match _sanitize_url links.online_link with
    | .error e => .error e
    | .ok download =>
      let row :=
        (match stream with
         | some u => [Button.mk MSG_BUTTON_STREAM_NOW u]
         | none => []) ++
        (match download with
         | some u => [Button.mk MSG_BUTTON_DOWNLOAD u]
         | none => [])
      .ok (if row = [] then none else some [row])

/-- The markup shape `get_link_buttons` produces from the two sanitized
links (named so the shape lemma can be stated without a dependent
match). -/
def buttonsOf (s d : Option String) : Option (List (List Button)) :=
  match s, d with
  | none, none => none
  | some u, none => some [[Button.mk MSG_BUTTON_STREAM_NOW u]]
  | none, some v => some [[Button.mk MSG_BUTTON_DOWNLOAD v]]
  | some u, some v => some [[Button.mk MSG_BUTTON_STREAM_NOW u,
                             Button.mk MSG_BUTTON_DOWNLOAD v]]

/-! ### `fwd_media`

`handle_flood_wait(m_msg.copy, ...)` is a remote call; its observable
outcome (after flood-wait retries) is either a stored message or a raised
exception, recorded in a `CopyEnv`. -/

/-- Outcomes of the two possible copy attempts of `fwd_media`: the initial
copy with the original caption, and the retry with `caption=None`.
Messages are identified by their archival message id. -/
structure CopyEnv where
  withCaption : Except String Nat
  withoutCaption : Except String Nat

/-- Result of `fwd_media` as seen by its caller. -/
inductive FwdResult where
  | ok (m : Nat)
  | none
  | raise (e : String)
deriving DecidableEq

/-- `fwd_media(m_msg)`: try the copy; on an error whose text contains
`MEDIA_CAPTION_TOO_LONG`, retry once with the caption cleared (this retry
is not guarded, so its failure propagates); any other error yields `None`.
The second component records the attempts made (`true` = caption
cleared). -/
def fwd_media (env : CopyEnv) : FwdResult × List Bool :=
  match env.withCaption with
  | .ok m => (.ok m, [false])
  | .error e =>
    if containsSubstr e "MEDIA_CAPTION_TOO_LONG" then
      match env.withoutCaption with
      | .ok m => (.ok m, [false, true])
      | .error e2 => (.raise e2, [false, true])
    else (FwdResult.none, [false])

/-! ### `_safe_send_with_buttons` -/

/-- Errors a send can fail with: the typed `ButtonUrlInvalid` pyrogram
exception, or any other exception carrying a message text. -/
inductive SendErr where
  | buttonUrlInvalid (msg : String)
  | other (msg : String)
deriving DecidableEq

/-- Outcomes of the two possible send attempts of
`_safe_send_with_buttons`: with the supplied `reply_markup` and with
`reply_markup=None`. -/
structure SendEnv where
  firstAttempt : Except SendErr Nat
  secondAttempt : Except SendErr Nat

/-- `_safe_send_with_buttons(func, text=..., reply_markup=...)`: send with
the supplied markup; on `ButtonUrlInvalid`, or on any other error whose
text contains `BUTTON_URL_INVALID`, resend once with `reply_markup=None`;
any other error propagates.  The second component records the attempts
(`true` = with the supplied markup). -/
def _safe_send_with_buttons (env : SendEnv) : Except SendErr Nat × List Bool :=
  match env.firstAttempt with
  | .ok m => (.ok m, [true])
  | .error (.buttonUrlInvalid _) => (env.secondAttempt, [true, false])
  | .error (.other m) =>
    if containsSubstr m "BUTTON_URL_INVALID" then (env.secondAttempt, [true, false])
    else (.error (.other m), [true])

/-! ### `process_batch`

The batch loop is embedded as a function of `count`, `start_id` and an
environment giving, for each requested window of message ids, the outcome
of the bulk `bot.get_messages` call together with the outcome of
`process_single` on each fetched media message.  Audit-log messages, DM
copies and the inter-chunk sleep have no bearing on the claims and are
not recorded; the status-message edits and the chunk deliveries are
recorded as events. -/

/-- The link record produced by `gen_links` (external `LinkGenerator`);
all fields optional, read with `.get`. -/
structure LinkRecord where
  media_name : Option String
  media_size : Option String
  online_link : Option String
  stream_link : Option String
deriving DecidableEq

/-- One entry of the list returned by a successful `bot.get_messages`
bulk call: whether the message carries media, and — when it does — the
result of `process_single` on it (`none` embeds Python `None`, a
processing failure). -/
structure FetchedM where
  media : Bool
  links : Option LinkRecord
deriving DecidableEq

/-- Outcome of one bulk `bot.get_messages` call: an exception, a `None`
return, or a list of entries (a `none` entry is a `None` message in the
returned list). -/
inductive FetchOutcome where
  | failure
  | retNone
  | ok (ms : List (Option FetchedM))
deriving DecidableEq

/-- The per-invocation counters of `process_batch` plus the accumulated
`links_list`. -/
structure BatchState where
  processed : Nat
  failed : Nat
  links_list : List String
deriving DecidableEq

/-- Observable status/delivery actions of `process_batch`, in order:
`windowHeader` is the `MSG_PROCESSING_BATCH` edit at the top of each
window, `progressEdit` the throttled `MSG_PROCESSING_STATUS` edit,
`chunkMsg` one consolidated `MSG_BATCH_LINKS_READY` delivery message, and
`finalSummary` the closing `MSG_PROCESSING_RESULT` edit. -/
inductive BatchEvent where
  | windowHeader (batchNumber totalBatches fileCount : Nat)
  | progressEdit (processed failed : Nat)
  | chunkMsg (links : List String)
  | finalSummary (processed failed : Nat)
deriving DecidableEq

/-- The body of the inner `for m in messages` loop: a present media
message goes through `process_single`; a successful result appends
`links.get('online_link', '')` and increments `processed`; everything
else increments `failed`. -/
def stepMsg (s : BatchState) (m : Option FetchedM) : BatchState :=
  match m with
  | some mm =>
    if mm.media then
      match mm.links with
      | some links =>
        { s with processed := s.processed + 1,
                 links_list := s.links_list ++ [links.online_link.getD ""] }
      | none => { s with failed := s.failed + 1 }
    else { s with failed := s.failed + 1 }
  | none => { s with failed := s.failed + 1 }

/-- One window of the batch loop: a failed or `None` bulk fetch leaves
`messages = []`, so the inner loop runs over nothing. -/
def runWindow (s : BatchState) (fo : FetchOutcome) : BatchState :=
  match fo with
  | .failure => s
  | .retNone => s
  | .ok ms => ms.foldl stepMsg s

/-- Number of fetch windows: `range(0, count, 10)` has `ceil(count/10)`
elements. -/
def numWindows (count : Nat) : Nat := (count + 9) / 10

/-- `batch_size = min(10, count - batch_start)` for window `w`
(`batch_start = 10*w`). -/
def windowSize (count w : Nat) : Nat := min 10 (count - 10 * w)

/-- `batch_ids = list(range(start_id + batch_start, start_id + batch_start
+ batch_size))` for window `w`. -/
def windowIds (start_id count w : Nat) : List Nat :=
  List.range' (start_id + 10 * w) (windowSize count w)

/-- The throttled progress edit after a window: issued when
`(processed + failed) % 5 == 0` or `(processed + failed) == count`. -/
def progEvs (count : Nat) (s : BatchState) : List BatchEvent :=
  if (s.processed + s.failed) % 5 = 0 ∨ s.processed + s.failed = count then
    [BatchEvent.progressEdit s.processed s.failed]
  else []

/-- The window loop of `process_batch` over the remaining window indices,
threading the state and collecting events. -/
def runWindows (start_id count : Nat) (fetch : List Nat → FetchOutcome) :
    List Nat → BatchState → BatchState × List BatchEvent
  | [], s => (s, [])
  | w :: ws, s =>
    let s' := runWindow s (fetch (windowIds start_id count w))
    let rest := runWindows start_id count fetch ws s'
    (rest.1,
      BatchEvent.windowHeader (w + 1) (numWindows count) (windowSize count w) ::
        (progEvs count s' ++ rest.2))

/-- `links_list[i:i+20]` chunking (`for i in range(0, len(links_list),
20)`), fuelled by the list length so the recursion is structural. -/
def chunksAux : Nat → List String → List (List String)
  | _, [] => []
  | 0, _ :: _ => []
  | fuel + 1, x :: xs => (x :: xs.take 19) :: chunksAux fuel (xs.drop 19)

/-- `links_list[i:i+20]` chunking. -/
def chunks20 (l : List String) : List (List String) := chunksAux l.length l

/-- `process_batch(bot, msg, start_id, count, status_msg, ...)`: run the
windows, then deliver the accumulated links in chunks of 20, then issue
the final summary edit. -/
def process_batch (start_id count : Nat) (fetch : List Nat → FetchOutcome) :
    BatchState × List BatchEvent :=
  ((runWindows start_id count fetch (List.range (numWindows count)) ⟨0, 0, []⟩).1,
    (runWindows start_id count fetch (List.range (numWindows count)) ⟨0, 0, []⟩).2 ++
      (chunks20 (runWindows start_id count fetch (List.range (numWindows count))
          ⟨0, 0, []⟩).1.links_list).map BatchEvent.chunkMsg ++
      [BatchEvent.finalSummary
        (runWindows start_id count fetch (List.range (numWindows count)) ⟨0, 0, []⟩).1.processed
        (runWindows start_id count fetch (List.range (numWindows count)) ⟨0, 0, []⟩).1.failed])

/-- The text of one chunk delivery message:
`MSG_BATCH_LINKS_READY.format(count=...) + "\n\n`" + "\n".join(chunk) +
"`"`; the header text lives in the external messages module and is a
parameter. -/
def chunk_text (header : Nat → String) (chunk : List String) : String :=
  header chunk.length ++ "\n\n`" ++ pyJoin "\n" chunk ++ "`"

/-! ### Observation helpers used by the claims -/

/-- The `(processed, failed)` tallies of the progress edits among a list
of events, in order. -/
def progressTallies (evs : List BatchEvent) : List Nat :=
  evs.filterMap fun e =>
    match e with
    | .progressEdit p f => some (p + f)
    | _ => none

/-- The link chunks delivered by `chunkMsg` events, in order. -/
def chunkMsgs (evs : List BatchEvent) : List (List String) :=
  evs.filterMap fun e =>
    match e with
    | .chunkMsg l => some l
    | _ => none

/-- Length of the list a fetch outcome makes the inner loop run over. -/
def fetchLen (fo : FetchOutcome) : Nat :=
  match fo with
  | .ok ms => ms.length
  | _ => 0

/-- The link string an entry contributes to `links_list`, if any. -/
def msgLink (m : Option FetchedM) : Option String :=
  match m with
  | some mm => if mm.media then mm.links.map (fun l => l.online_link.getD "") else none
  | none => none

/-- The links one window appends to `links_list`. -/
def windowLinks (fo : FetchOutcome) : List String :=
  match fo with
  | .ok ms => ms.filterMap msgLink
  | _ => []

/-- The `(processed + failed)` tally at the end of each successive window,
used to characterize which windows issue a progress edit. -/
def windowTallies (start_id count : Nat) (fetch : List Nat → FetchOutcome) :
    List Nat → BatchState → List Nat
  | [], _ => []
  | w :: ws, s =>
    let s' := runWindow s (fetch (windowIds start_id count w))
    (s'.processed + s'.failed) :: windowTallies start_id count fetch ws s'

/-- A fetch environment where every requested id resolves to a media
message that processes successfully to the given record. -/
def envAllOk (r : LinkRecord) : List Nat → FetchOutcome :=
  fun ids => .ok (ids.map (fun _ => some ⟨true, some r⟩))

/-- A fetch environment where every bulk fetch raises. -/
def envFetchFail : List Nat → FetchOutcome := fun _ => .failure

/-- A sample link record with both links present. -/
def sampleRec : LinkRecord :=
  ⟨some "f.bin", some "1 MB", some "https://e.x/f", some "https://e.x/s"⟩

/-- A sample link record with no `online_link`. -/
def sampleRecNoLink : LinkRecord :=
  ⟨some "f.bin", some "1 MB", none, some "https://e.x/s"⟩

deriving instance DecidableEq for Except

/-- The progress-edit condition as a boolean predicate on a tally. -/
def editCond (count t : Nat) : Bool := decide (t % 5 = 0 ∨ t = count)

/-- Fetch environment for a mixed batch at `start_id = 100`: id `100`
processes to a record with no `online_link`, every other id to
`sampleRec`. -/
def envMixed : List Nat → FetchOutcome :=
  fun ids => .ok (ids.map (fun i =>
    if i = 100 then some ⟨true, some sampleRecNoLink⟩
    else some ⟨true, some sampleRec⟩))

/-! ### Helper lemmas: the inner message loop -/

theorem stepMsg_tally (s : BatchState) (m : Option FetchedM) :
    (stepMsg s m).processed + (stepMsg s m).failed = s.processed + s.failed + 1 := by
  rcases m with _ | ⟨med, links⟩
  · simp [stepMsg]; omega
  · cases med <;> cases links <;> simp [stepMsg] <;> omega

theorem stepMsg_links (s : BatchState) (m : Option FetchedM) :
    (stepMsg s m).links_list = s.links_list ++ (msgLink m).toList := by
  rcases m with _ | ⟨med, links⟩
  · simp [stepMsg, msgLink]
  · cases med <;> cases links <;> simp [stepMsg, msgLink]

theorem stepMsg_processed (s : BatchState) (m : Option FetchedM) :
    (stepMsg s m).processed = s.processed + (msgLink m).toList.length := by
  rcases m with _ | ⟨med, links⟩
  · simp [stepMsg, msgLink]
  · cases med <;> cases links <;> simp [stepMsg, msgLink]

theorem foldl_stepMsg_tally (ms : List (Option FetchedM)) : ∀ s : BatchState,
    (ms.foldl stepMsg s).processed + (ms.foldl stepMsg s).failed
      = s.processed + s.failed + ms.length := by
  induction ms with
  | nil => intro s; simp
  | cons m t ih =>
    intro s
    simp only [List.foldl_cons, List.length_cons]
    rw [ih (stepMsg s m), stepMsg_tally]
    omega

theorem foldl_stepMsg_links (ms : List (Option FetchedM)) : ∀ s : BatchState,
    (ms.foldl stepMsg s).links_list = s.links_list ++ ms.filterMap msgLink := by
  induction ms with
  | nil => intro s; simp
  | cons m t ih =>
    intro s
    simp only [List.foldl_cons]
    rw [ih (stepMsg s m), stepMsg_links]
    cases h : msgLink m <;> simp [List.filterMap_cons, h]

theorem foldl_stepMsg_processed (ms : List (Option FetchedM)) : ∀ s : BatchState,
    (ms.foldl stepMsg s).processed = s.processed + (ms.filterMap msgLink).length := by
  induction ms with
  | nil => intro s; simp
  | cons m t ih =>
    intro s
    simp only [List.foldl_cons]
    rw [ih (stepMsg s m), stepMsg_processed]
    cases h : msgLink m <;> (simp [List.filterMap_cons, h]; try omega)

/-! ### Helper lemmas: one window -/

theorem runWindow_tally (s : BatchState) (fo : FetchOutcome) :
    (runWindow s fo).processed + (runWindow s fo).failed
      = s.processed + s.failed + fetchLen fo := by
  cases fo <;> simp [runWindow, fetchLen, foldl_stepMsg_tally]

theorem runWindow_links (s : BatchState) (fo : FetchOutcome) :
    (runWindow s fo).links_list = s.links_list ++ windowLinks fo := by
  cases fo <;> simp [runWindow, windowLinks, foldl_stepMsg_links]

theorem runWindow_processed (s : BatchState) (fo : FetchOutcome) :
    (runWindow s fo).processed = s.processed + (windowLinks fo).length := by
  cases fo <;> simp [runWindow, windowLinks, foldl_stepMsg_processed]

/-! ### Helper lemmas: event projections -/

theorem progressTallies_cons (e : BatchEvent) (l : List BatchEvent) :
    progressTallies (e :: l)
      = (match e with
         | .progressEdit p f => [p + f]
         | _ => []) ++ progressTallies l := by
  cases e <;> rfl

theorem progressTallies_append (l1 l2 : List BatchEvent) :
    progressTallies (l1 ++ l2) = progressTallies l1 ++ progressTallies l2 := by
  simp [progressTallies, List.filterMap_append]

theorem chunkMsgs_cons (e : BatchEvent) (l : List BatchEvent) :
    chunkMsgs (e :: l)
      = (match e with
         | .chunkMsg c => [c]
         | _ => []) ++ chunkMsgs l := by
  cases e <;> rfl

theorem chunkMsgs_append (l1 l2 : List BatchEvent) :
    chunkMsgs (l1 ++ l2) = chunkMsgs l1 ++ chunkMsgs l2 := by
  simp [chunkMsgs, List.filterMap_append]

theorem progressTallies_progEvs (count : Nat) (s : BatchState) :
    progressTallies (progEvs count s)
      = if (s.processed + s.failed) % 5 = 0 ∨ s.processed + s.failed = count then
          [s.processed + s.failed]
        else [] := by
  unfold progEvs
  split <;> rfl

theorem chunkMsgs_progEvs (count : Nat) (s : BatchState) :
    chunkMsgs (progEvs count s) = [] := by
  unfold progEvs
  split <;> rfl

theorem progressTallies_chunkList (cs : List (List String)) :
    progressTallies (cs.map BatchEvent.chunkMsg) = [] := by
  induction cs with
  | nil => rfl
  | cons c t ih => simp [progressTallies_cons, ih]

theorem chunkMsgs_chunkList (cs : List (List String)) :
    chunkMsgs (cs.map BatchEvent.chunkMsg) = cs := by
  induction cs with
  | nil => rfl
  | cons c t ih => simp [chunkMsgs_cons, ih]

/-! ### Helper lemmas: the window loop -/

theorem runWindows_tally (start count : Nat) (fetch : List Nat → FetchOutcome) :
    ∀ (ws : List Nat) (s : BatchState),
    (runWindows start count fetch ws s).1.processed +
        (runWindows start count fetch ws s).1.failed
      = s.processed + s.failed +
          (ws.map (fun w => fetchLen (fetch (windowIds start count w)))).sum := by
  intro ws
  induction ws with
  | nil => intro s; simp [runWindows]
  | cons w t ih =>
    intro s
    simp only [runWindows, List.map_cons, List.sum_cons]
    rw [ih, runWindow_tally]
    omega

theorem runWindows_links (start count : Nat) (fetch : List Nat → FetchOutcome) :
    ∀ (ws : List Nat) (s : BatchState),
    (runWindows start count fetch ws s).1.links_list
      = s.links_list ++
          (ws.map (fun w => windowLinks (fetch (windowIds start count w)))).flatten := by
  intro ws
  induction ws with
  | nil => intro s; simp [runWindows]
  | cons w t ih =>
    intro s
    simp only [runWindows, List.map_cons, List.flatten_cons]
    rw [ih, runWindow_links]
    simp [List.append_assoc]

theorem runWindows_processed (start count : Nat) (fetch : List Nat → FetchOutcome) :
    ∀ (ws : List Nat) (s : BatchState),
    (runWindows start count fetch ws s).1.processed
      = s.processed +
          ((ws.map (fun w => windowLinks (fetch (windowIds start count w)))).flatten).length := by
  intro ws
  induction ws with
  | nil => intro s; simp [runWindows]
  | cons w t ih =>
    intro s
    simp only [runWindows, List.map_cons, List.flatten_cons]
    rw [ih, runWindow_processed]
    simp [List.length_append]
    omega

theorem runWindows_progress (start count : Nat) (fetch : List Nat → FetchOutcome) :
    ∀ (ws : List Nat) (s : BatchState),
    progressTallies (runWindows start count fetch ws s).2
      = (windowTallies start count fetch ws s).filter (editCond count) := by
  intro ws
  induction ws with
  | nil => intro s; simp [runWindows, windowTallies, progressTallies]
  | cons w t ih =>
    intro s
    simp only [runWindows, windowTallies]
    rw [progressTallies_cons, progressTallies_append, progressTallies_progEvs, ih]
    simp only [List.filter_cons]
    by_cases hc : ((runWindow s (fetch (windowIds start count w))).processed +
        (runWindow s (fetch (windowIds start count w))).failed) % 5 = 0 ∨
        (runWindow s (fetch (windowIds start count w))).processed +
          (runWindow s (fetch (windowIds start count w))).failed = count
    · simp [hc, editCond]
    · simp [hc, editCond]

theorem runWindows_no_chunk (start count : Nat) (fetch : List Nat → FetchOutcome) :
    ∀ (ws : List Nat) (s : BatchState),
    chunkMsgs (runWindows start count fetch ws s).2 = [] := by
  intro ws
  induction ws with
  | nil => intro s; simp [runWindows, chunkMsgs]
  | cons w t ih =>
    intro s
    simp only [runWindows]
    rw [chunkMsgs_cons, chunkMsgs_append, chunkMsgs_progEvs, ih]
    rfl

/-! ### Helper lemmas: window arithmetic -/

theorem windowIds_succ (start count w : Nat) :
    windowIds start count (w + 1) = windowIds (start + 10) (count - 10) w := by
  unfold windowIds windowSize
  congr 1 <;> omega

theorem ids_flatten : ∀ (n count start : Nat), numWindows count = n →
    ((List.range n).map (windowIds start count)).flatten = List.range' start count := by
  intro n
  induction n with
  | zero =>
    intro count start h
    have hc : count = 0 := by unfold numWindows at h; omega
    subst hc
    simp
  | succ n ih =>
    intro count start h
    rw [List.range_succ_eq_map]
    simp only [List.map_cons, List.map_map, List.flatten_cons]
    have hmap : (List.range n).map (windowIds start count ∘ Nat.succ)
        = (List.range n).map (windowIds (start + 10) (count - 10)) := by
      apply List.map_congr_left
      intro a _
      simpa [Function.comp] using windowIds_succ start count a
    have hn : numWindows (count - 10) = n := by
      unfold numWindows at h ⊢
      omega
    rw [hmap, ih (count - 10) (start + 10) hn]
    by_cases hcle : count ≤ 10
    · have h1 : count - 10 = 0 := by omega
      have h2 : windowSize count 0 = count := by unfold windowSize; omega
      simp [windowIds, h1, h2]
    · have h2 : windowSize count 0 = 10 := by unfold windowSize; omega
      have happ := List.range'_append start 10 (count - 10) 1
      have hc10 : count - 10 + 10 = count := by omega
      rw [hc10] at happ
      simpa [windowIds, h2] using happ

theorem windows_cover (count : Nat) :
    ((List.range (numWindows count)).map (windowSize count)).sum = count := by
  have h := ids_flatten (numWindows count) count 0 rfl
  have hlen := congrArg List.length h
  simp only [List.length_flatten, List.map_map] at hlen
  have hmap : (List.range (numWindows count)).map (List.length ∘ windowIds 0 count)
      = (List.range (numWindows count)).map (windowSize count) := by
    apply List.map_congr_left
    intro a _
    simp [Function.comp, windowIds, List.length_range']
  rw [hmap] at hlen
  simpa [List.length_range'] using hlen

theorem windowSize_mid (count w : Nat) (h : w + 1 < numWindows count) :
    windowSize count w = 10 := by
  unfold numWindows at h
  unfold windowSize
  omega

theorem windowSize_last (count : Nat) (h : count % 10 ≠ 0) :
    windowSize count (numWindows count - 1) = count % 10 := by
  unfold numWindows windowSize
  omega

theorem numWindows_ceil (count : Nat) :
    count ≤ 10 * numWindows count ∧ 10 * numWindows count < count + 10 := by
  unfold numWindows
  omega

/-! ### Helper lemmas: chunking -/

theorem chunksAux_flatten : ∀ (fuel : Nat) (l : List String), l.length ≤ fuel →
    (chunksAux fuel l).flatten = l := by
  intro fuel
  induction fuel with
  | zero =>
    intro l h
    have h0 : l = [] := by
      cases l
      · rfl
      · simp at h
    subst h0
    rfl
  | succ n ih =>
    intro l h
    cases l with
    | nil => rfl
    | cons x xs =>
      simp only [chunksAux, List.flatten_cons]
      rw [ih (xs.drop 19) (by simp only [List.length_drop]; simp at h; omega)]
      simp [List.take_append_drop]

theorem chunks20_flatten (l : List String) : (chunks20 l).flatten = l :=
  chunksAux_flatten l.length l le_rfl

theorem chunksAux_length : ∀ (fuel : Nat) (l : List String), l.length ≤ fuel →
    (chunksAux fuel l).length = (l.length + 19) / 20 := by
  intro fuel
  induction fuel with
  | zero =>
    intro l h
    have h0 : l = [] := by
      cases l
      · rfl
      · simp at h
    subst h0
    rfl
  | succ n ih =>
    intro l h
    cases l with
    | nil => rfl
    | cons x xs =>
      simp only [chunksAux, List.length_cons]
      rw [ih (xs.drop 19) (by simp only [List.length_drop]; simp at h; omega)]
      simp only [List.length_drop]
      simp at h
      omega

theorem chunks20_length (l : List String) :
    (chunks20 l).length = (l.length + 19) / 20 :=
  chunksAux_length l.length l le_rfl

theorem chunksAux_mem : ∀ (fuel : Nat) (l c : List String), l.length ≤ fuel →
    c ∈ chunksAux fuel l → c.length ≤ 20 := by
  intro fuel
  induction fuel with
  | zero =>
    intro l c h hc
    have h0 : l = [] := by
      cases l
      · rfl
      · simp at h
    subst h0
    simp [chunksAux] at hc
  | succ n ih =>
    intro l c h hc
    cases l with
    | nil => simp [chunksAux] at hc
    | cons x xs =>
      simp only [chunksAux] at hc
      rcases List.mem_cons.mp hc with h1 | h2
      · subst h1
        simp only [List.length_cons, List.length_take]
        omega
      · exact ih (xs.drop 19) c
          (by simp only [List.length_drop]; simp at h; omega) h2

theorem chunks20_mem (l : List String) (c : List String) (h : c ∈ chunks20 l) :
    c.length ≤ 20 :=
  chunksAux_mem l.length l c le_rfl h

/-! ### Helper lemmas: `process_batch` projections -/

theorem process_batch_fst (start count : Nat) (fetch : List Nat → FetchOutcome) :
    (process_batch start count fetch).1
      = (runWindows start count fetch (List.range (numWindows count)) ⟨0, 0, []⟩).1 := rfl

theorem pb_links_length (start count : Nat) (fetch : List Nat → FetchOutcome) :
    (process_batch start count fetch).1.links_list.length
      = (process_batch start count fetch).1.processed := by
  rw [process_batch_fst, runWindows_links, runWindows_processed]
  simp

theorem pb_progress (start count : Nat) (fetch : List Nat → FetchOutcome) :
    progressTallies (process_batch start count fetch).2
      = (windowTallies start count fetch (List.range (numWindows count))
          ⟨0, 0, []⟩).filter (editCond count) := by
  unfold process_batch
  rw [progressTallies_append, progressTallies_append, progressTallies_chunkList,
    runWindows_progress]
  simp [progressTallies]

theorem pb_chunks (start count : Nat) (fetch : List Nat → FetchOutcome) :
    chunkMsgs (process_batch start count fetch).2
      = chunks20 (process_batch start count fetch).1.links_list := by
  unfold process_batch
  rw [chunkMsgs_append, chunkMsgs_append, chunkMsgs_chunkList, runWindows_no_chunk]
  simp [chunkMsgs]

theorem pb_tally (start count : Nat) (fetch : List Nat → FetchOutcome) :
    (process_batch start count fetch).1.processed +
        (process_batch start count fetch).1.failed
      = ((List.range (numWindows count)).map
          (fun w => fetchLen (fetch (windowIds start count w)))).sum := by
  have h1 : (process_batch start count fetch).1
      = (runWindows start count fetch (List.range (numWindows count)) ⟨0, 0, []⟩).1 := rfl
  rw [h1, runWindows_tally]
  simp

/-! ### Helper lemmas: `_sanitize_url` and `get_link_buttons` -/

theorem pyStrip_all_space (s : String) (h : ∀ c ∈ s.data, isPySpace c = true) :
    pyStrip s = "" := by
  unfold pyStrip
  have h1 : s.data.dropWhile isPySpace = [] := List.dropWhile_eq_nil_iff.mpr h
  simp [h1]

theorem sanitize_blank (s : String) (h : ∀ c ∈ s.data, isPySpace c = true) :
    _sanitize_url (some s) = .ok none := by
  unfold _sanitize_url
  by_cases h0 : s = ""
  · simp [h0]
  · simp [h0, pyStrip_all_space s h]

theorem sanitize_nonweb (s : String) (parts : SplitResult)
    (h : urlsplit (promote (pyStrip s)) = .ok parts)
    (hs : ¬ (parts.scheme = "http" ∨ parts.scheme = "https")) :
    _sanitize_url (some s) = .ok none := by
  unfold _sanitize_url
  by_cases h0 : s = ""
  · simp [h0]
  · by_cases h1 : pyStrip s = ""
    · simp [h0, h1]
    · simp only [if_neg h0, if_neg h1]
      rw [h]
      simp [hs]

theorem sanitize_nohost (s : String) (parts : SplitResult)
    (h : urlsplit (promote (pyStrip s)) = .ok parts)
    (hn : parts.netloc = "") :
    _sanitize_url (some s) = .ok none := by
  unfold _sanitize_url
  by_cases h0 : s = ""
  · simp [h0]
  · by_cases h1 : pyStrip s = ""
    · simp [h0, h1]
    · simp only [if_neg h0, if_neg h1]
      rw [h]
      by_cases h2 : ¬ (parts.scheme = "http" ∨ parts.scheme = "https")
      · simp [h2]
      · simp [h2, hn]

theorem sanitize_cap (raw : Option String) (r : String)
    (h : _sanitize_url raw = .ok (some r)) : r.length ≤ 1024 := by
  unfold _sanitize_url at h
  rcases raw with _ | s
  · simp at h
  · by_cases h0 : s = ""
    · simp [h0] at h
    · by_cases h1 : pyStrip s = ""
      · simp [h0, h1] at h
      · simp only [if_neg h0, if_neg h1] at h
        rcases hu : urlsplit (promote (pyStrip s)) with e | parts <;> rw [hu] at h
        · simp at h
        · by_cases h2 : ¬ (parts.scheme = "http" ∨ parts.scheme = "https")
          · simp [h2] at h
          · simp only [h2, if_neg, if_false, ite_false, ite_true] at h
            by_cases h3 : parts.netloc = ""
            · simp [h2, h3] at h
            · simp only [h2, h3, if_neg, if_false, ite_false] at h
              rcases hs : (if (promote (pyStrip s)).data.any isPySpace then
                  urlsplit (urlunsplit (reencode parts))
                else .ok parts) with e | parts1 <;>
                simp only [h2, h3, hs, ite_false, ite_true, if_neg, if_false] at h
              · simp at h
              · by_cases h4 : (urlunsplit (reencode parts1)).length > 1024
                · simp [h4] at h
                · simp [h4] at h
                  subst h
                  omega

theorem get_link_buttons_eq (links : LinksDict) (s d : Option String)
    (hs : _sanitize_url links.stream_link = .ok s)
    (hd : _sanitize_url links.online_link = .ok d) :
    get_link_buttons links = .ok (buttonsOf s d) := by
  rcases s with _ | u <;> rcases d with _ | v <;>
    (unfold get_link_buttons buttonsOf; rw [hs, hd]; simp)

theorem get_link_buttons_ok (links : LinksDict) (m : Option (List (List Button)))
    (h : get_link_buttons links = .ok m) :
    ∃ s d, _sanitize_url links.stream_link = .ok s ∧
      _sanitize_url links.online_link = .ok d := by
  unfold get_link_buttons at h
  rcases h1 : _sanitize_url links.stream_link with e | s <;> rw [h1] at h
  · simp at h
  · rcases h2 : _sanitize_url links.online_link with e | d <;> rw [h2] at h
    · simp at h
    · exact ⟨s, d, rfl, rfl⟩

/-! ### Claims -/

/-- C1 (corrected).  In `process_batch`, a fetched entry that is `None` or
carries no media increments `failed`, but a failed bulk fetch of a window
leaves both counters unchanged (the window contributes nothing), so
`processed + failed = count` holds when every window's bulk fetch
succeeds and returns one entry per requested id — not merely whenever
every source id was attempted. -/
theorem spec_c1 :
    (∀ s : BatchState, runWindow s .failure = s) ∧
    (∀ (s : BatchState) (mm : FetchedM), mm.media = false →
      stepMsg s (some mm) = { s with failed := s.failed + 1 }) ∧
    (∀ s : BatchState, stepMsg s none = { s with failed := s.failed + 1 }) ∧
    (∀ (start count : Nat) (fetch : List Nat → FetchOutcome),
      (∀ w ∈ List.range (numWindows count),
        fetchLen (fetch (windowIds start count w)) = windowSize count w) →
      (process_batch start count fetch).1.processed +
          (process_batch start count fetch).1.failed = count) := by
  refine ⟨fun s => rfl, ?_, fun s => rfl, ?_⟩
  · intro s mm h
    rcases mm with ⟨med, links⟩
    simp only at h
    simp [stepMsg, h]
  · intro start count fetch H
    rw [pb_tally, List.map_congr_left H, windows_cover]

/-- C1 witness: a batch of 7 ids whose single window fetch returns a full
list of media messages ends with `processed + failed = 7`. -/
theorem spec_c1_witness :
    (process_batch 100 7 (envAllOk sampleRec)).1.processed +
      (process_batch 100 7 (envAllOk sampleRec)).1.failed = 7 :=
  spec_c1.2.2.2 100 7 (envAllOk sampleRec) (by decide)

/-- C1 counterexample: for `count = 1` with the (only) bulk fetch failing,
every source id was attempted, yet `failed` stays `0` and
`processed + failed ≠ count` — the failed bulk fetch is not counted as a
failure. -/
theorem spec_c1_cex :
    (process_batch 100 1 envFetchFail).1.failed = 0 ∧
    (process_batch 100 1 envFetchFail).1.processed +
      (process_batch 100 1 envFetchFail).1.failed ≠ 1 := by
  decide

/-- C2 (corrected).  The progress edits of `process_batch` are exactly the
end-of-window tallies `(processed + failed)` that are a multiple of 5 or
equal `count` — the condition is only evaluated after each window, so for
`count = 23` with every item completing the edits happen at completions
10, 20 and 23 (not at the mid-window completions 5 and 15). -/
theorem spec_c2 :
    (∀ (start count : Nat) (fetch : List Nat → FetchOutcome),
      progressTallies (process_batch start count fetch).2
        = (windowTallies start count fetch (List.range (numWindows count))
            ⟨0, 0, []⟩).filter (editCond count)) ∧
    progressTallies (process_batch 100 23 (envAllOk sampleRec)).2 = [10, 20, 23] := by
  exact ⟨pb_progress, by decide⟩

/-- C2 counterexample: for `count = 23` with every item completing, the
progress-edit tallies are `[10, 20, 23]`; in particular no edit happens
at completion 5, contradicting the claimed 5, 10, 15, 20, 23. -/
theorem spec_c2_cex :
    progressTallies (process_batch 100 23 (envAllOk sampleRec)).2 = [10, 20, 23] ∧
    ¬ 5 ∈ progressTallies (process_batch 100 23 (envAllOk sampleRec)).2 := by
  decide

/-- C3 (code bug).  `_sanitize_url` is not total: on an authority with an
unbalanced IPv6 bracket, `urlsplit` raises `ValueError("Invalid IPv6
URL")` which propagates out of `_sanitize_url` instead of a string or
`None` being returned. -/
theorem spec_c3 :
    _sanitize_url (some "http://[::1") = .error "Invalid IPv6 URL" := by
  decide

/-- C4 (corrected).  `fwd_media` retries exactly once with the caption
cleared when the first copy fails with the oversize-caption condition,
and any other first-copy failure yields `None` with no second attempt;
but a failure of the caption-cleared retry itself propagates to the
caller rather than yielding `None`. -/
theorem spec_c4 :
    (∀ (env : CopyEnv) (m : Nat), env.withCaption = .ok m →
      fwd_media env = (.ok m, [false])) ∧
    (∀ (env : CopyEnv) (e : String) (m : Nat), env.withCaption = .error e →
      containsSubstr e "MEDIA_CAPTION_TOO_LONG" = true →
      env.withoutCaption = .ok m →
      fwd_media env = (.ok m, [false, true])) ∧
    (∀ (env : CopyEnv) (e e2 : String), env.withCaption = .error e →
      containsSubstr e "MEDIA_CAPTION_TOO_LONG" = true →
      env.withoutCaption = .error e2 →
      fwd_media env = (.raise e2, [false, true])) ∧
    (∀ (env : CopyEnv) (e : String), env.withCaption = .error e →
      containsSubstr e "MEDIA_CAPTION_TOO_LONG" = false →
      fwd_media env = (FwdResult.none, [false])) := by
  refine ⟨?_, ?_, ?_, ?_⟩
  · intro env m h
    unfold fwd_media
    rw [h]
  · intro env e m h hsub h2
    unfold fwd_media
    rw [h, h2]
    simp [hsub]
  · intro env e e2 h hsub h2
    unfold fwd_media
    rw [h, h2]
    simp [hsub]
  · intro env e h hsub
    unfold fwd_media
    rw [h]
    simp [hsub]

/-- C4 witness: an oversize-caption failure followed by a successful
caption-cleared retry yields the stored message after two attempts; a
different failure yields `None` after one attempt. -/
theorem spec_c4_witness :
    fwd_media ⟨.error "400 MEDIA_CAPTION_TOO_LONG", .ok 7⟩ = (.ok 7, [false, true]) ∧
    fwd_media ⟨.error "PEER_ID_INVALID", .ok 7⟩ = (FwdResult.none, [false]) :=
  ⟨spec_c4.2.1 ⟨.error "400 MEDIA_CAPTION_TOO_LONG", .ok 7⟩
      "400 MEDIA_CAPTION_TOO_LONG" 7 rfl (by decide) rfl,
   spec_c4.2.2.2 ⟨.error "PEER_ID_INVALID", .ok 7⟩ "PEER_ID_INVALID" rfl (by decide)⟩

/-- C4 counterexample: when the first copy fails with the oversize-caption
condition and the caption-cleared retry also fails, `fwd_media` raises
the retry's exception to the caller instead of returning `None`. -/
theorem spec_c4_cex :
    (fwd_media ⟨.error "400 MEDIA_CAPTION_TOO_LONG", .error "CHAT_WRITE_FORBIDDEN"⟩).1
      = .raise "CHAT_WRITE_FORBIDDEN" ∧
    (fwd_media ⟨.error "400 MEDIA_CAPTION_TOO_LONG", .error "CHAT_WRITE_FORBIDDEN"⟩).1
      ≠ FwdResult.none := by
  decide

/-- C5 (confirmed).  `_safe_send_with_buttons` sends exactly once on
success; on the typed `ButtonUrlInvalid` error, or on any error whose
text contains `BUTTON_URL_INVALID`, it retries exactly once with no
buttons; any other failure propagates unchanged after a single attempt. -/
theorem spec_c5 :
    (∀ (env : SendEnv) (m : Nat), env.firstAttempt = .ok m →
      _safe_send_with_buttons env = (.ok m, [true])) ∧
    (∀ (env : SendEnv) (e : String),
      env.firstAttempt = .error (.buttonUrlInvalid e) →
      _safe_send_with_buttons env = (env.secondAttempt, [true, false])) ∧
    (∀ (env : SendEnv) (e : String), env.firstAttempt = .error (.other e) →
      containsSubstr e "BUTTON_URL_INVALID" = true →
      _safe_send_with_buttons env = (env.secondAttempt, [true, false])) ∧
    (∀ (env : SendEnv) (e : String), env.firstAttempt = .error (.other e) →
      containsSubstr e "BUTTON_URL_INVALID" = false →
      _safe_send_with_buttons env = (.error (.other e), [true])) := by
  refine ⟨?_, ?_, ?_, ?_⟩
  · intro env m h
    unfold _safe_send_with_buttons
    rw [h]
  · intro env e h
    unfold _safe_send_with_buttons
    rw [h]
  · intro env e h hsub
    unfold _safe_send_with_buttons
    rw [h]
    simp [hsub]
  · intro env e h hsub
    unfold _safe_send_with_buttons
    rw [h]
    simp [hsub]

/-- C5 witness: a successful first send is sent exactly once; a typed
button rejection resends once without buttons; an unrelated failure
propagates after one attempt. -/
theorem spec_c5_witness :
    _safe_send_with_buttons ⟨.ok 9, .ok 10⟩ = (.ok 9, [true]) ∧
    _safe_send_with_buttons ⟨.error (.buttonUrlInvalid "bad"), .ok 10⟩
      = (.ok 10, [true, false]) ∧
    _safe_send_with_buttons ⟨.error (.other "x BUTTON_URL_INVALID y"), .ok 10⟩
      = (.ok 10, [true, false]) ∧
    _safe_send_with_buttons ⟨.error (.other "CHAT_WRITE_FORBIDDEN"), .ok 10⟩
      = (.error (.other "CHAT_WRITE_FORBIDDEN"), [true]) :=
  ⟨spec_c5.1 ⟨.ok 9, .ok 10⟩ 9 rfl,
   spec_c5.2.1 ⟨.error (.buttonUrlInvalid "bad"), .ok 10⟩ "bad" rfl,
   spec_c5.2.2.1 ⟨.error (.other "x BUTTON_URL_INVALID y"), .ok 10⟩
     "x BUTTON_URL_INVALID y" rfl (by decide),
   spec_c5.2.2.2 ⟨.error (.other "CHAT_WRITE_FORBIDDEN"), .ok 10⟩
     "CHAT_WRITE_FORBIDDEN" rfl (by decide)⟩

/-- C6 (confirmed).  `process_batch` iterates exactly `ceil(count/10)`
windows covering the consecutive source ids from `start_id`, every
non-final window of size 10 and the final one of `count % 10` when
`count` is not a multiple of 10 (for `count = 23`: sizes 10, 10, 3);
afterwards it emits exactly `ceil(successCount/20)` delivery chunk
messages whose concatenation, in order, is the accumulated link list,
each chunk holding at most 20 links. -/
theorem spec_c6 : ∀ (start count : Nat) (fetch : List Nat → FetchOutcome),
    (count ≤ 10 * numWindows count ∧ 10 * numWindows count < count + 10) ∧
    ((List.range (numWindows count)).map (windowIds start count)).flatten
      = List.range' start count ∧
    (∀ w, w + 1 < numWindows count → windowSize count w = 10) ∧
    (count % 10 ≠ 0 → windowSize count (numWindows count - 1) = count % 10) ∧
    (List.range (numWindows 23)).map (windowSize 23) = [10, 10, 3] ∧
    chunkMsgs (process_batch start count fetch).2
      = chunks20 (process_batch start count fetch).1.links_list ∧
    (chunkMsgs (process_batch start count fetch).2).length
      = ((process_batch start count fetch).1.processed + 19) / 20 ∧
    (chunkMsgs (process_batch start count fetch).2).flatten
      = (process_batch start count fetch).1.links_list ∧
    ∀ c ∈ chunkMsgs (process_batch start count fetch).2, c.length ≤ 20 := by
  intro start count fetch
  refine ⟨numWindows_ceil count, ids_flatten _ count start rfl, windowSize_mid count,
    windowSize_last count, by decide, pb_chunks start count fetch, ?_, ?_, ?_⟩
  · rw [pb_chunks, chunks20_length, pb_links_length]
  · rw [pb_chunks, chunks20_flatten]
  · intro c hc
    rw [pb_chunks] at hc
    exact chunks20_mem _ c hc

/-- C6 witness: for `count = 23` the first window has size 10 and the last
(third) window has size `23 % 10 = 3`. -/
theorem spec_c6_witness :
    windowSize 23 0 = 10 ∧ windowSize 23 (numWindows 23 - 1) = 23 % 10 :=
  ⟨(spec_c6 100 23 (envAllOk sampleRec)).2.2.1 0 (by decide),
   (spec_c6 100 23 (envAllOk sampleRec)).2.2.2.1 (by decide)⟩

/-- C7 (corrected).  `_sanitize_url` returns `None` for `None`, empty and
whitespace-only inputs, for every input that parses (after prefix
promotion) with a scheme other than `http`/`https`, and for every parsed
input lacking a host, and it never returns a string longer than 1024
characters — but an input whose authority has unbalanced square brackets
raises instead of returning `None`, so the absent-result guarantee only
holds for inputs `urlsplit` accepts. -/
theorem spec_c7 :
    _sanitize_url none = .ok none ∧
    (∀ s : String, (∀ c ∈ s.data, isPySpace c = true) →
      _sanitize_url (some s) = .ok none) ∧
    (∀ (s : String) (parts : SplitResult),
      urlsplit (promote (pyStrip s)) = .ok parts →
      ¬ (parts.scheme = "http" ∨ parts.scheme = "https") →
      _sanitize_url (some s) = .ok none) ∧
    (∀ (s : String) (parts : SplitResult),
      urlsplit (promote (pyStrip s)) = .ok parts →
      parts.netloc = "" → _sanitize_url (some s) = .ok none) ∧
    (∀ (raw : Option String) (r : String),
      _sanitize_url raw = .ok (some r) → r.length ≤ 1024) :=
  ⟨rfl, sanitize_blank, sanitize_nonweb, sanitize_nohost, sanitize_cap⟩

/-- C7 witness: the whitespace-only input `" "`, the non-web-scheme input
`"javascript:x"` and the hostless input `"http://"` all sanitize to
`None`. -/
theorem spec_c7_witness :
    _sanitize_url (some " ") = .ok none ∧
    _sanitize_url (some "javascript:x") = .ok none ∧
    _sanitize_url (some "http://") = .ok none :=
  ⟨spec_c7.2.1 " " (by decide),
   spec_c7.2.2.1 "javascript:x" ⟨"javascript", "", "x", "", ""⟩ (by decide) (by decide),
   spec_c7.2.2.2.1 "http://" ⟨"http", "", "", "", ""⟩ (by decide) rfl⟩

/-- C7 counterexample: `"ftp://[x"` has scheme `ftp` — not a web scheme —
yet `_sanitize_url` raises `ValueError("Invalid IPv6 URL")` on it instead
of returning `None`, because the bracket check precedes the scheme
check's `None` return. -/
theorem spec_c7_cex :
    (splitScheme "ftp://[x".data).1 = "ftp".data ∧
    _sanitize_url (some "ftp://[x") = .error "Invalid IPv6 URL" ∧
    _sanitize_url (some "ftp://[x") ≠ .ok none := by
  decide

/-- C8 (confirmed).  A markup built by `get_link_buttons` has exactly one
row of at most two buttons — the stream button first, then the download
button; a button whose link sanitizes to `None` is omitted (both the
stream and the download side), the markup is exactly `buttonsOf` of the
two sanitizer results (so each attached URL is the sanitizer's output),
when both sanitize to `None` the markup is `None`, and in particular a
`javascript:`-scheme stream link yields no stream button. -/
theorem spec_c8 :
    (∀ (links : LinksDict) (m : Option (List (List Button)))
        (rows : List (List Button)),
      get_link_buttons links = .ok m → m = some rows → rows.length = 1) ∧
    (∀ (links : LinksDict) (m : Option (List (List Button)))
        (rows : List (List Button)) (row : List Button),
      get_link_buttons links = .ok m → m = some rows → row ∈ rows →
      row.map (fun b => b.text) = [MSG_BUTTON_STREAM_NOW] ∨
      row.map (fun b => b.text) = [MSG_BUTTON_DOWNLOAD] ∨
      row.map (fun b => b.text) = [MSG_BUTTON_STREAM_NOW, MSG_BUTTON_DOWNLOAD]) ∧
    (∀ links : LinksDict, _sanitize_url links.stream_link = .ok none →
      _sanitize_url links.online_link = .ok none →
      get_link_buttons links = .ok none) ∧
    (∀ (links : LinksDict) (m : Option (List (List Button)))
        (rows : List (List Button)) (row : List Button),
      get_link_buttons links = .ok m → m = some rows → row ∈ rows →
      _sanitize_url links.stream_link = .ok none →
      ∀ b ∈ row, b.text ≠ MSG_BUTTON_STREAM_NOW) ∧
    (∀ (links : LinksDict) (m : Option (List (List Button)))
        (rows : List (List Button)) (row : List Button),
      get_link_buttons links = .ok m → m = some rows → row ∈ rows →
      _sanitize_url links.online_link = .ok none →
      ∀ b ∈ row, b.text ≠ MSG_BUTTON_DOWNLOAD) ∧
    (∀ (links : LinksDict) (s d : Option String),
      _sanitize_url links.stream_link = .ok s →
      _sanitize_url links.online_link = .ok d →
      get_link_buttons links = .ok (buttonsOf s d)) ∧
    get_link_buttons ⟨some "javascript:x", none⟩ = .ok none := by
  refine ⟨?_, ?_, ?_, ?_, ?_, get_link_buttons_eq, by decide⟩
  · intro links m rows h hm
    obtain ⟨s, d, hs, hd⟩ := get_link_buttons_ok links m h
    have he := get_link_buttons_eq links s d hs hd
    rw [h] at he
    injection he with he2
    subst he2
    rcases s with _ | u <;> rcases d with _ | v <;> simp [buttonsOf] at hm <;>
      simp [← hm]
  · intro links m rows row h hm hrow
    obtain ⟨s, d, hs, hd⟩ := get_link_buttons_ok links m h
    have he := get_link_buttons_eq links s d hs hd
    rw [h] at he
    injection he with he2
    subst he2
    rcases s with _ | u <;> rcases d with _ | v <;> simp [buttonsOf] at hm <;>
      (rw [← hm] at hrow; simp at hrow; subst hrow; simp)
  · intro links h1 h2
    have he := get_link_buttons_eq links none none h1 h2
    simpa [buttonsOf] using he
  · intro links m rows row h hm hrow h4 b hb
    obtain ⟨s, d, hs, hd⟩ := get_link_buttons_ok links m h
    have he := get_link_buttons_eq links s d hs hd
    rw [h] at he
    injection he with he2
    subst he2
    rw [hs] at h4
    injection h4 with h5
    subst h5
    rcases d with _ | v <;> simp [buttonsOf] at hm
    rw [← hm] at hrow
    simp at hrow
    subst hrow
    simp at hb
    subst hb
    simp [MSG_BUTTON_DOWNLOAD, MSG_BUTTON_STREAM_NOW]
  · intro links m rows row h hm hrow h4 b hb
    obtain ⟨s, d, hs, hd⟩ := get_link_buttons_ok links m h
    have he := get_link_buttons_eq links s d hs hd
    rw [h] at he
    injection he with he2
    subst he2
    rw [hd] at h4
    injection h4 with h5
    subst h5
    rcases s with _ | u <;> simp [buttonsOf] at hm
    rw [← hm] at hrow
    simp at hrow
    subst hrow
    simp at hb
    subst hb
    simp [MSG_BUTTON_DOWNLOAD, MSG_BUTTON_STREAM_NOW]

/-- C8 witness: a record with a spaced stream link and a plain download
link yields one row whose two buttons are the stream button (URL
percent-encoded) before the download button; and for a record whose
download link sanitizes to `None` (a `javascript:` URL) the produced row
carries no download button. -/
theorem spec_c8_witness :
    ([[Button.mk MSG_BUTTON_STREAM_NOW "https://x.test/a%20b",
       Button.mk MSG_BUTTON_DOWNLOAD "https://x.test/c"]] :
      List (List Button)).length = 1 ∧
    (Button.mk MSG_BUTTON_STREAM_NOW "https://x.test/c").text ≠ MSG_BUTTON_DOWNLOAD :=
  ⟨spec_c8.1 ⟨some "https://x.test/a b", some "https://x.test/c"⟩ _ _ (by decide) rfl,
   spec_c8.2.2.2.2.1 ⟨some "https://x.test/c", some "javascript:x"⟩
     (some [[Button.mk MSG_BUTTON_STREAM_NOW "https://x.test/c"]])
     [[Button.mk MSG_BUTTON_STREAM_NOW "https://x.test/c"]]
     [Button.mk MSG_BUTTON_STREAM_NOW "https://x.test/c"]
     (by decide) rfl (by simp) (by decide)
     (Button.mk MSG_BUTTON_STREAM_NOW "https://x.test/c") (by simp)⟩

/-- C9 (confirmed).  Throughout `process_batch` the accumulated
`links_list` has exactly `processed` entries, in processing order (its
final value is the in-order concatenation of each window's successful
links), each loop step adds exactly one completion, and — whenever each
bulk fetch returns at most one entry per requested id — `processed +
failed` never exceeds `count`. -/
theorem spec_c9 :
    (∀ (s : BatchState) (m : Option FetchedM), s.links_list.length = s.processed →
      (stepMsg s m).links_list.length = (stepMsg s m).processed) ∧
    (∀ (s : BatchState) (m : Option FetchedM),
      (stepMsg s m).processed + (stepMsg s m).failed = s.processed + s.failed + 1) ∧
    (∀ (start count : Nat) (fetch : List Nat → FetchOutcome),
      (process_batch start count fetch).1.links_list.length
        = (process_batch start count fetch).1.processed) ∧
    (∀ (start count : Nat) (fetch : List Nat → FetchOutcome),
      (process_batch start count fetch).1.links_list
        = ((List.range (numWindows count)).map
            (fun w => windowLinks (fetch (windowIds start count w)))).flatten) ∧
    (∀ (start count : Nat) (fetch : List Nat → FetchOutcome),
      (∀ w ∈ List.range (numWindows count),
        fetchLen (fetch (windowIds start count w)) ≤ windowSize count w) →
      (process_batch start count fetch).1.processed +
          (process_batch start count fetch).1.failed ≤ count) := by
  refine ⟨?_, stepMsg_tally, pb_links_length, ?_, ?_⟩
  · intro s m h
    rw [stepMsg_links, stepMsg_processed, List.length_append, h]
  · intro start count fetch
    have h1 : (process_batch start count fetch).1
        = (runWindows start count fetch (List.range (numWindows count)) ⟨0, 0, []⟩).1 :=
      rfl
    rw [h1, runWindows_links]
    simp
  · intro start count fetch H
    rw [pb_tally]
    exact le_trans (List.sum_le_sum H) (le_of_eq (windows_cover count))

/-- C9 witness: for the all-success batch of 23 the final tally respects
the bound `processed + failed ≤ 23`. -/
theorem spec_c9_witness :
    (process_batch 100 23 (envAllOk sampleRec)).1.processed +
      (process_batch 100 23 (envAllOk sampleRec)).1.failed ≤ 23 :=
  spec_c9.2.2.2.2 100 23 (envAllOk sampleRec) (by decide)

/-- C10 (confirmed).  An item that processes successfully but whose link
record has no `online_link` is counted as processed and appends the empty
string (`links.get('online_link', '')`) to `links_list`; joining the
chunk with newlines therefore yields an empty segment — a blank line —
for it, with no fallback literal such as `N/A`. -/
theorem spec_c10 :
    (∀ (s : BatchState) (links : LinkRecord), links.online_link = none →
      stepMsg s (some ⟨true, some links⟩)
        = { s with processed := s.processed + 1,
                   links_list := s.links_list ++ [""] }) ∧
    (process_batch 100 2 envMixed).1 = ⟨2, 0, ["", "https://e.x/f"]⟩ ∧
    chunkMsgs (process_batch 100 2 envMixed).2 = [["", "https://e.x/f"]] ∧
    pyJoin "\n" ["", "https://e.x/f"] = "\nhttps://e.x/f" ∧
    containsSubstr (pyJoin "\n" ["", "https://e.x/f"]) "N/A" = false := by
  refine ⟨?_, by decide, by decide, by decide, by decide⟩
  intro s links h
  simp [stepMsg, h]

/-- C10 witness: a successful item with no `online_link` increments
`processed` and appends the empty string to an initially empty state. -/
theorem spec_c10_witness :
    stepMsg ⟨0, 0, []⟩ (some ⟨true, some sampleRecNoLink⟩)
      = ⟨1, 0, [""]⟩ :=
  spec_c10.1 ⟨0, 0, []⟩ sampleRecNoLink rfl
